import Mathlib

/-!
Verification of the Bluetooth link-layer protocol engine of the neurosity SDK
(`src/api/bluetooth/web/WebBluetoothTransport.ts` and the React Native
transport), as a shallow embedding in Lean 4.

Sections:
* pending-action list bookkeeping (`_addPendingAction` / `_removePendingAction`)
* chunk reassembly (`stitchChunks`, split-on-delimiter semantics)
* the notification lifecycle toggle (`_autoToggleActionNotifications`)
* the correlated action dispatcher (`dispatchAction`) as an event-trace machine
* the connection-status broadcast pipeline (`connectionStatus$`)
* the characteristic registry (`getCharacteristicByName`, connect/disconnect)
-/

namespace NeurosityBluetooth

/-! ## Pending-action list bookkeeping

Embeds `WebBluetoothTransport._addPendingAction` (WebBluetoothTransport.ts,
lines 412-415): `this.pendingActions$.next([...actions, actionId])`, and
`_removePendingAction` (lines 417-422):
`actions.filter((id) => id !== actionId)`. -/

def _addPendingAction (actions : List Nat) (actionId : Nat) : List Nat :=
  actions ++ [actionId]

def _removePendingAction (actions : List Nat) (actionId : Nat) : List Nat :=
  actions.filter (fun id => id ≠ actionId)

/-! ## Split on a delimiter sequence

`splitOnSeq d l` splits `l` on the (multi-element) delimiter `d` by a greedy
left-to-right scan, exactly like JavaScript `String.prototype.split`: at each
position, if the delimiter starts here, close the current segment and consume
the delimiter; otherwise move one element into the current segment.  An empty
delimiter never matches (guarded by `0 < d.length`), so splitting on it
returns the whole input as one segment. -/

def splitOnSeq {α : Type} [DecidableEq α] (d : List α) : List α → List (List α)
  | [] => [[]]
  | x :: xs =>
    if _h : 0 < d.length ∧ (x :: xs).take d.length = d then
      [] :: splitOnSeq d ((x :: xs).drop d.length)
    else
      match splitOnSeq d xs with
      | [] => [[x]]
      | s :: ss => (x :: s) :: ss
termination_by l => l.length
decreasing_by
  · simp only [List.length_drop, List.length_cons]
    omega
  · simp

/-- Modelled from the spec: the `stitchChunks` operator
(`src/api/bluetooth/utils/stitch.ts` is not in the source tree; both
transports pipe decoded chunk text through it).  Per the spec: maintain one
running buffer; on each incoming chunk, append it and scan for the delimiter;
every completed (pre-delimiter) segment is emitted as one message and the
remainder becomes the new buffer seed; if no delimiter is found, keep
accumulating.  The result is the pair (emitted messages, final buffer). -/
def stitchChunks {α : Type} [DecidableEq α] (d : List α) :
    List α → List (List α) → List (List α) × List α
  | buf, [] => ([], buf)
  | buf, c :: cs =>
    let segs := splitOnSeq d (buf ++ c)
    let next := stitchChunks d (segs.getLastD []) cs
    (segs.dropLast ++ next.1, next.2)

/-! ## Action dispatcher (`dispatchAction`, WebBluetoothTransport.ts lines
477-543; identical logic in `ReactNativeTransport.dispatchAction`)

JavaScript is single-threaded, so a dispatch is embedded as a synchronous
setup phase (the body of the promise executor) followed by a sequence of
asynchronously delivered events — timer expiry, incoming decoded messages on
the subscribed channel, and settlement of the write promise — processed one
at a time in delivery order.  The model records every externally visible
side effect in a trace of `BtOp`s. -/

/-- A decoded message arriving on the channel; `actionId` is `none` when the
payload carries no (numeric) `actionId` field. -/
structure Response where
  actionId : Option Nat
  payload : String
deriving DecidableEq

inductive DispatchEvent
  /-- the `timer(responseTimeout)` observable fires -/
  | timerFire
  /-- a message is delivered on the subscribed characteristic -/
  | responseMsg (r : Response)
  /-- the `writeCharacteristic` promise resolves -/
  | writeOk
  /-- the `writeCharacteristic` promise rejects with `msg` -/
  | writeFail (msg : String)
deriving DecidableEq

inductive BtError
  /-- `Action with id ${actionId} timed out after ${responseTimeout}ms` -/
  | actionTimedOut (actionId : Nat) (timeoutMs : Nat)
  /-- rejection forwarded from the failed write (`error.message`) -/
  | writeFailed (msg : String)
deriving DecidableEq

inductive Settled
  | resolvedWith (payload : String)
  | resolvedNull
  | rejected (err : BtError)
deriving DecidableEq

/-- A promise settles at most once: only the first settlement sticks. -/
def settle (s : Option Settled) (x : Settled) : Option Settled :=
  match s with
  | none => some x
  | some y => some y

structure DispatchState where
  /-- current value of `pendingActions$` -/
  pending : List Nat
  /-- the `timer(responseTimeout)` subscription is still live -/
  timerArmed : Bool
  /-- the `take(1)`-limited response subscription is still live -/
  listenerArmed : Bool
  /-- how the returned promise has settled, if it has -/
  outcome : Option Settled
deriving DecidableEq

/-- Externally visible side effects of a dispatch, in program order. -/
inductive BtOp
  | opAddPending (actionId : Nat)
  | opRemovePending (actionId : Nat)
  | opArmTimer (ms : Nat)
  | opCancelTimer
  | opSubscribeResponses
  | opWrite (payload : String)
deriving DecidableEq

/-- Event handlers armed by the correlated branch of `dispatchAction`
(lines 503-532):
* timer fired (506-511): `_removePendingAction(actionId)`, then reject with
  the timeout message; the one-shot timer is then spent;
* message delivered (514-526): if the listener is still subscribed and the
  message's `actionId` matches, `timeout.unsubscribe()`,
  `_removePendingAction(actionId)`, resolve with the message (`take(1)`
  ends the subscription); otherwise the `filter` drops it;
* write rejected (529-532): `_removePendingAction(actionId)`, reject with
  the write error; neither the timer nor the listener is torn down here;
* write resolved: nothing happens in the correlated branch. -/
def stepCorrelated (actionId timeoutMs : Nat) (s : DispatchState) :
    DispatchEvent → DispatchState × List BtOp
  | .timerFire =>
    if s.timerArmed then
      ({ s with
          timerArmed := false
          pending := _removePendingAction s.pending actionId
          outcome := settle s.outcome (.rejected (.actionTimedOut actionId timeoutMs)) },
        [.opRemovePending actionId])
    else (s, [])
  | .responseMsg r =>
    if s.listenerArmed ∧ r.actionId = some actionId then
      ({ s with
          timerArmed := false
          listenerArmed := false
          pending := _removePendingAction s.pending actionId
          outcome := settle s.outcome (.resolvedWith r.payload) },
        [.opCancelTimer, .opRemovePending actionId])
    else (s, [])
  | .writeOk => (s, [])
  | .writeFail msg =>
    ({ s with
        pending := _removePendingAction s.pending actionId
        outcome := settle s.outcome (.rejected (.writeFailed msg)) },
      [.opRemovePending actionId])

/-- Event handlers armed by the fire-and-forget branch (lines 533-541):
only the write promise settles the dispatch; no timer, no subscription. -/
def stepFireForget (s : DispatchState) :
    DispatchEvent → DispatchState × List BtOp
  | .writeOk => ({ s with outcome := settle s.outcome .resolvedNull }, [])
  | .writeFail msg =>
    ({ s with outcome := settle s.outcome (.rejected (.writeFailed msg)) }, [])
  | _ => (s, [])

def runEvents (step : DispatchState → DispatchEvent → DispatchState × List BtOp)
    (s : DispatchState) : List DispatchEvent → DispatchState × List BtOp
  | [] => (s, [])
  | e :: es =>
    let this := step s e
    let rest := runEvents step this.1 es
    (rest.1, this.2 ++ rest.2)

/-- The correlated branch of `dispatchAction` (lines 503-532): the setup
phase runs synchronously, in program order — `_addPendingAction(actionId)`
(504), arm the timeout timer (506), subscribe to the response channel (514),
initiate the write (529) — then the delivered events are processed by the
armed handlers. -/
def dispatchCorrelated (init : List Nat) (actionId responseTimeout : Nat)
    (payload : String) (evs : List DispatchEvent) :
    DispatchState × List BtOp :=
  let s0 : DispatchState :=
    { pending := _addPendingAction init actionId
      timerArmed := true
      listenerArmed := true
      outcome := none }
  let run := runEvents (stepCorrelated actionId responseTimeout) s0 evs
  (run.1,
    [.opAddPending actionId, .opArmTimer responseTimeout,
      .opSubscribeResponses, .opWrite payload] ++ run.2)

/-- The fire-and-forget branch of `dispatchAction` (lines 533-541): only the
write is initiated; its settlement resolves (with `null`) or rejects the
promise. -/
def dispatchFireForget (init : List Nat) (payload : String)
    (evs : List DispatchEvent) : DispatchState × List BtOp :=
  let s0 : DispatchState :=
    { pending := init
      timerArmed := false
      listenerArmed := false
      outcome := none }
  let run := runEvents stepFireForget s0 evs
  (run.1, [.opWrite payload] ++ run.2)

/-- Embeds `dispatchAction` (lines 477-543).  `init` is the value of
`pendingActions$` when the dispatch starts, `actionId` the pin produced by
`create6DigitPin()`, `payload` the framed JSON text.  The correlated branch
is taken when `responseRequired && responseTimeout` — both truthy, i.e.
`responseTimeout ≠ 0`. -/
def dispatchAction (init : List Nat) (responseRequired : Bool)
    (responseTimeout : Nat) (actionId : Nat) (payload : String)
    (evs : List DispatchEvent) : DispatchState × List BtOp :=
  if responseRequired ∧ responseTimeout ≠ 0 then
    dispatchCorrelated init actionId responseTimeout payload evs
  else
    dispatchFireForget init payload evs

/-- Write-promise settlement: `none` for success, `some msg` for failure. -/
def writeResultEvent : Option String → DispatchEvent
  | none => .writeOk
  | some m => .writeFail m

/-! ## Notification lifecycle manager
(`_autoToggleActionNotifications`, WebBluetoothTransport.ts lines 424-475)

While the transport is connected, the manager observes every emission of
`pendingActions$` and toggles hardware notifications for the `actions`
characteristic with a local `started` flag.  Start/stop I/O failures are
caught and logged; the flag is flipped before the call either way. -/

inductive NotifOp
  | start
  | stop
deriving DecidableEq

/-- One emission of `pendingActions$` (the subscriber body, lines 444-474):
`hasPendingActions = !!pendingActions.length`; the first `if` starts
notifications when there are pending actions and `started` is false, the
second stops them when there are none and `started` is true — reading the
flag already updated by the first `if`, exactly as the source does. -/
def toggleStep (started : Bool) (pendingActions : List Nat) :
    Bool × List NotifOp :=
  let hasPendingActions := !pendingActions.isEmpty
  let fst := if hasPendingActions && !started then (true, [NotifOp.start])
    else (started, ([] : List NotifOp))
  let snd := if !hasPendingActions && fst.1 then (false, [NotifOp.stop])
    else (fst.1, ([] : List NotifOp))
  (snd.1, fst.2 ++ snd.2)

/-- The whole subscription: fold `toggleStep` over the sequence of
`pendingActions$` emissions observed while connected. -/
def toggleRun (started : Bool) : List (List Nat) → List NotifOp
  | [] => []
  | p :: ps =>
    let this := toggleStep started p
    this.2 ++ toggleRun this.1 ps

/-- Follows the spec's words (refinement reference, not taken from the
source): emit exactly one `start` at each transition of the pending set from
empty to non-empty, exactly one `stop` at each transition from non-empty
back to empty, and nothing at any other point.  `prevNonempty` is whether
the previously observed pending set was non-empty. -/
def specNotificationOps (prevNonempty : Bool) :
    List (List Nat) → List NotifOp
  | [] => []
  | p :: ps =>
    let cur := !p.isEmpty
    (if cur && !prevNonempty then [NotifOp.start]
      else if !cur && prevNonempty then [NotifOp.stop]
      else []) ++ specNotificationOps cur ps

/-- Number of empty→non-empty transitions of the emptiness signal. -/
def risingEdges (prev : Bool) : List Bool → Nat
  | [] => 0
  | b :: bs => (if b && !prev then 1 else 0) + risingEdges b bs

/-- Number of non-empty→empty transitions of the emptiness signal. -/
def fallingEdges (prev : Bool) : List Bool → Nat
  | [] => 0
  | b :: bs => (if !b && prev then 1 else 0) + fallingEdges b bs

/-! ## Connection status broadcast cell
(`status$` / `connectionStatus$`, WebBluetoothTransport.ts lines 30-39)

`connectionStatus$` pipes the raw `status$` emissions through
`filter((status) => !!status)`, `distinctUntilChanged()` and
`shareReplay(1)`. -/

/-- Modelled from the spec: the `STATUS` enum
(`src/api/bluetooth/types.ts` is not in the source tree); the spec gives the
four states Disconnected, Scanning, Connecting, Connected. -/
inductive STATUS
  | disconnected
  | scanning
  | connecting
  | connected
deriving DecidableEq

/-- Modelled from the spec: the string value carried by each `STATUS` enum
member (the enum is string-valued; the values are the lower-case state
names). -/
def statusString : STATUS → String
  | .disconnected => "disconnected"
  | .scanning => "scanning"
  | .connecting => "connecting"
  | .connected => "connected"

/-- JavaScript truthiness of a `STATUS` value (`!!status`): a string is
truthy exactly when it is non-empty. -/
def statusIsTruthy (s : STATUS) : Bool :=
  statusString s != ""

/-- rxjs `distinctUntilChanged` after the first element: drop every element
equal to the previously forwarded one. -/
def dropConsecFrom {β : Type} [DecidableEq β] (prev : β) : List β → List β
  | [] => []
  | x :: xs => if x = prev then dropConsecFrom prev xs
    else x :: dropConsecFrom x xs

/-- rxjs `distinctUntilChanged`: forward the first element, then suppress
consecutive duplicates. -/
def distinctUntilChangedList {β : Type} [DecidableEq β] : List β → List β
  | [] => []
  | x :: xs => x :: dropConsecFrom x xs

/-- The processed output of `connectionStatus$` for a given sequence of raw
`status$` emissions: `filter((status) => !!status)` then
`distinctUntilChanged()`. -/
def connectionStatusPipeline (emitted : List STATUS) : List STATUS :=
  distinctUntilChangedList (emitted.filter statusIsTruthy)

/-- `shareReplay(1)`: a subscriber joining after the pipeline has produced
`k` outputs first receives the latest of those outputs (if any), then every
subsequent output. -/
def observeFrom (emitted : List STATUS) (k : Nat) : List STATUS :=
  match ((connectionStatusPipeline emitted).take k).getLast? with
  | some v => v :: (connectionStatusPipeline emitted).drop k
  | none => (connectionStatusPipeline emitted).drop k

/-! ## Characteristic registry and connection lifecycle
(WebBluetoothTransport.ts lines 41-70, 187-218, 243-263;
ReactNativeTransport `getCharacteristicByName`) -/

/-- The web transport state relevant to the registry claims: the current
`status$` value and `characteristicsByName` (characteristic objects
abstracted to opaque handles). -/
structure WebTransportState where
  status : STATUS
  characteristicsByName : List (String × Nat)
deriving DecidableEq

inductive WebTransportEvent
  /-- `getServerServiceAndCharacteristics` ran to completion: it set
  `CONNECTING`, rebuilt `characteristicsByName` from the retrieved
  characteristic list, then set `CONNECTED` (lines 187-218) -/
  | connectSucceeded (chars : List (String × Nat))
  /-- a `gattserverdisconnected` event fired (explicit `disconnect()` call
  or asynchronous link loss); the only handler is
  `this.status$.next(STATUS.DISCONNECTED)` (lines 52-54) -/
  | gattServerDisconnected
deriving DecidableEq

def webStep (s : WebTransportState) : WebTransportEvent → WebTransportState
  | .connectSucceeded chars =>
    { status := .connected, characteristicsByName := chars }
  | .gattServerDisconnected => { s with status := .disconnected }

/-- Embeds `WebBluetoothTransport.getCharacteristicByName` (lines 259-263):
`return this.characteristicsByName?.[characteristicName]` — a plain lookup
whose promise always resolves, with `undefined` (here `none`) when the name
is absent; it never rejects. -/
def webGetCharacteristicByName (s : WebTransportState)
    (characteristicName : String) : Option Nat :=
  s.characteristicsByName.lookup characteristicName

/-- Embeds the caller-side guard in `writeCharacteristic` (lines 396-405):
when the resolved characteristic is `undefined`, reject with
`Did not find characteristic by the name: ...`. -/
def webWriteCharacteristicGuard (s : WebTransportState)
    (characteristicName : String) : Except String Nat :=
  match webGetCharacteristicByName s characteristicName with
  | none =>
    Except.error ("Did not find characteristic by the name: "
      ++ characteristicName)
  | some c => Except.ok c

/-- React Native transport addressing triple. -/
structure RnCharacteristic where
  characteristicUUID : String
  serviceUUID : String
  peripheralId : String
deriving DecidableEq

/-- Embeds `ReactNativeTransport.getCharacteristicByName`: throw
`Characteristic by name ... is not found` when the name is not a key of
`characteristicsByName`, otherwise return the entry. -/
def rnGetCharacteristicByName
    (characteristicsByName : List (String × RnCharacteristic))
    (characteristicName : String) : Except String RnCharacteristic :=
  match characteristicsByName.lookup characteristicName with
  | none =>
    Except.error ("Characteristic by name " ++ characteristicName
      ++ " is not found")
  | some c => Except.ok c

/-- Result of the characteristic lookup at the top of the Web
`dispatchAction` promise executor (lines 486-496).  `neverSettles` means
the executor exits without resolving or rejecting, so the returned promise
stays pending forever. -/
inductive WebDispatchLookup
  | proceeds (characteristic : Nat)
  | neverSettles
deriving DecidableEq

/-- Embeds lines 486-496 of `dispatchAction`: `getCharacteristicByName`
is a plain guarded property access whose promise always resolves, so the
`.catch(() => reject(...))` attached to it is dead code; when the resolved
characteristic is `undefined`, `if (!characteristic) return;` exits the
executor without settling the promise — the dispatch neither resolves nor
rejects.  Only when the characteristic is found does the dispatch
proceed. -/
def webDispatchActionLookup (s : WebTransportState)
    (characteristicName : String) : WebDispatchLookup :=
  match webGetCharacteristicByName s characteristicName with
  | none => WebDispatchLookup.neverSettles
  | some c => WebDispatchLookup.proceeds c

end NeurosityBluetooth

namespace NeurosityBluetooth

/-! ## Lemmas about `splitOnSeq` -/

theorem splitOnSeq_nil {α : Type} [DecidableEq α] (d : List α) :
    splitOnSeq d ([] : List α) = [[]] := by
  simp [splitOnSeq]

theorem splitOnSeq_ne_nil {α : Type} [DecidableEq α] (d l : List α) :
    splitOnSeq d l ≠ [] := by
  induction l using splitOnSeq.induct d with
  | case1 => simp [splitOnSeq]
  | case2 x xs h ih =>
    rw [splitOnSeq, dif_pos h]
    simp
  | case3 x xs h hs ih =>
    rw [splitOnSeq, dif_neg h, hs]
    simp
  | case4 x xs h s ss hs ih =>
    rw [splitOnSeq, dif_neg h, hs]
    simp

theorem splitOnSeq_singleton {α : Type} [DecidableEq α] {d l : List α}
    {s : List α} (h : splitOnSeq d l = [s]) : l = s := by
  induction l using splitOnSeq.induct d generalizing s with
  | case1 =>
    rw [splitOnSeq_nil] at h
    simp at h
    exact h.symm
  | case2 x xs hc ih =>
    rw [splitOnSeq, dif_pos hc] at h
    cases hs : splitOnSeq d ((x :: xs).drop d.length) with
    | nil => exact absurd hs (splitOnSeq_ne_nil d _)
    | cons a as => rw [hs] at h; simp at h
  | case3 x xs hc hs ih =>
    exact absurd hs (splitOnSeq_ne_nil d xs)
  | case4 x xs hc a as hs ih =>
    rw [splitOnSeq, dif_neg hc, hs] at h
    cases as with
    | nil =>
      simp at h
      obtain ⟨rfl, rfl⟩ := h
      have := ih hs
      simp [this]
    | cons b bs => simp at h

theorem splitOnSeq_short {α : Type} [DecidableEq α] {d l : List α}
    (h : l.length < d.length) : splitOnSeq d l = [l] := by
  induction l using splitOnSeq.induct d with
  | case1 => simp [splitOnSeq]
  | case2 x xs hc ih =>
    exfalso
    have htake := congrArg List.length hc.2
    simp only [List.length_take] at htake
    omega
  | case3 x xs hc hs ih =>
    exact absurd hs (splitOnSeq_ne_nil d xs)
  | case4 x xs hc s ss hs ih =>
    rw [splitOnSeq, dif_neg hc, hs]
    have hxs : xs.length < d.length := by
      simp at h ⊢; omega
    have := ih hxs
    rw [hs] at this
    simp at this
    obtain ⟨rfl, rfl⟩ := this
    simp

theorem getLastD_irrel {β : Type} {l : List β} (h : l ≠ []) (z w : β) :
    l.getLastD z = l.getLastD w := by
  cases l with
  | nil => exact absurd rfl h
  | cons a t => rw [List.getLastD_cons, List.getLastD_cons]

theorem getLastD_single {β : Type} (a z : β) : ([a] : List β).getLastD z = a := rfl

/-- Splitting a concatenation: the complete segments of `x` are final, and the
trailing partial segment of `x` is re-scanned together with `y`. -/
theorem splitOnSeq_append {α : Type} [DecidableEq α] (d : List α) (x y : List α) :
    splitOnSeq d (x ++ y) =
      (splitOnSeq d x).dropLast ++
        splitOnSeq d ((splitOnSeq d x).getLastD [] ++ y) := by
  induction x using splitOnSeq.induct d with
  | case1 => simp [splitOnSeq_nil]
  | case2 x xs hc ih =>
    have hlen : d.length ≤ (x :: xs).length := by
      have := congrArg List.length hc.2
      simp only [List.length_take] at this
      omega
    have hc2 : 0 < d.length ∧ ((x :: xs) ++ y).take d.length = d := by
      refine ⟨hc.1, ?_⟩
      rw [List.take_append_of_le_length hlen]
      exact hc.2
    have hstep : splitOnSeq d ((x :: xs) ++ y)
        = [] :: splitOnSeq d ((x :: xs).drop d.length ++ y) := by
      rw [show (x :: xs) ++ y = x :: (xs ++ y) from rfl, splitOnSeq]
      rw [dif_pos (show 0 < d.length ∧ (x :: (xs ++ y)).take d.length = d from hc2)]
      rw [show (x :: (xs ++ y)) = (x :: xs) ++ y from rfl,
        List.drop_append_of_le_length hlen]
    have hx : splitOnSeq d (x :: xs)
        = [] :: splitOnSeq d ((x :: xs).drop d.length) := by
      rw [splitOnSeq, dif_pos hc]
    rw [hstep, hx, ih]
    cases hS : splitOnSeq d ((x :: xs).drop d.length) with
    | nil => exact absurd hS (splitOnSeq_ne_nil d _)
    | cons s ss =>
      simp only [List.getLastD_cons, List.dropLast_cons₂, List.cons_append]
  | case3 x xs hc hs ih =>
    exact absurd hs (splitOnSeq_ne_nil d xs)
  | case4 x xs hc s ss hs ih =>
    by_cases hc2 : 0 < d.length ∧ ((x :: xs) ++ y).take d.length = d
    · have hshort : (x :: xs).length < d.length := by
        by_contra hge
        push_neg at hge
        apply hc
        refine ⟨hc2.1, ?_⟩
        rw [← List.take_append_of_le_length hge]
        exact hc2.2
      rw [splitOnSeq_short hshort]
      simp
    · have hx : splitOnSeq d (x :: xs) = (x :: s) :: ss := by
        rw [splitOnSeq, dif_neg hc, hs]
      have hstep : splitOnSeq d ((x :: xs) ++ y)
          = match splitOnSeq d (xs ++ y) with
            | [] => [[x]]
            | s' :: ss' => (x :: s') :: ss' := by
        rw [show (x :: xs) ++ y = x :: (xs ++ y) from rfl, splitOnSeq]
        rw [dif_neg (show ¬(0 < d.length ∧ (x :: (xs ++ y)).take d.length = d) from hc2)]
      rw [hstep, ih, hs, hx]
      cases ss with
      | nil =>
        have hxss : xs = s := splitOnSeq_singleton hs
        subst hxss
        simp only [List.dropLast_single, getLastD_single, List.nil_append]
        rw [← hstep]
      | cons t ts =>
        simp only [List.getLastD_cons, List.dropLast_cons₂, List.cons_append]

/-- The trailing partial segment of a split contains no delimiter: splitting
it again yields a single segment. -/
theorem splitOnSeq_getLastD {α : Type} [DecidableEq α] (d l : List α) :
    splitOnSeq d ((splitOnSeq d l).getLastD []) = [(splitOnSeq d l).getLastD []] := by
  induction l using splitOnSeq.induct d with
  | case1 => simp [splitOnSeq_nil]
  | case2 x xs hc ih =>
    rw [splitOnSeq, dif_pos hc]
    cases hS : splitOnSeq d ((x :: xs).drop d.length) with
    | nil => exact absurd hS (splitOnSeq_ne_nil d _)
    | cons s ss =>
      rw [List.getLastD_cons]
      rw [hS] at ih
      rw [getLastD_irrel (l := s :: ss) (by simp) [] s] at ih
      rwa [getLastD_irrel (l := s :: ss) (by simp) s []] at ih
  | case3 x xs hc hs ih =>
    exact absurd hs (splitOnSeq_ne_nil d xs)
  | case4 x xs hc s ss hs ih =>
    have hx : splitOnSeq d (x :: xs) = (x :: s) :: ss := by
      rw [splitOnSeq, dif_neg hc, hs]
    rw [hx]
    cases ss with
    | nil =>
      rw [List.getLastD_cons, List.getLastD]
      have hxss : xs = s := splitOnSeq_singleton hs
      subst hxss
      exact hx
    | cons t ts =>
      rw [List.getLastD_cons]
      rw [hs, List.getLastD_cons] at ih
      rw [getLastD_irrel (l := t :: ts) (by simp) (x :: s) s]
      rwa [getLastD_irrel (l := t :: ts) (by simp) s s] at ih

theorem getLastD_append_of_ne_nil {β : Type} (A : List β) {B : List β}
    (h : B ≠ []) (z : β) : (A ++ B).getLastD z = B.getLastD z := by
  rw [List.getLastD_eq_getLast?, List.getLastD_eq_getLast?,
    List.getLast?_append_of_ne_nil _ h]

/-- Invariant of the reassembly loop: as long as the running buffer contains
no delimiter, the messages emitted so far plus a split of the remaining text
recover the split of the whole text. -/
theorem stitchChunks_invariant {α : Type} [DecidableEq α] (d : List α)
    (cs : List (List α)) :
    ∀ buf : List α, splitOnSeq d buf = [buf] →
      (stitchChunks d buf cs).1 = (splitOnSeq d (buf ++ cs.flatten)).dropLast ∧
      (stitchChunks d buf cs).2 = (splitOnSeq d (buf ++ cs.flatten)).getLastD [] := by
  induction cs with
  | nil =>
    intro buf hbuf
    simp [stitchChunks, hbuf, getLastD_single]
  | cons c cs ih =>
    intro buf hbuf
    have hflat : buf ++ (c :: cs).flatten = (buf ++ c) ++ cs.flatten := by
      simp
    have happ := splitOnSeq_append d (buf ++ c) cs.flatten
    have hlast := splitOnSeq_getLastD d (buf ++ c)
    have hne := splitOnSeq_ne_nil d ((splitOnSeq d (buf ++ c)).getLastD [] ++ cs.flatten)
    obtain ⟨ih1, ih2⟩ := ih ((splitOnSeq d (buf ++ c)).getLastD []) hlast
    constructor
    · show (splitOnSeq d (buf ++ c)).dropLast ++
        (stitchChunks d ((splitOnSeq d (buf ++ c)).getLastD []) cs).1 = _
      rw [ih1, hflat, happ,
        List.dropLast_append_of_ne_nil _ hne]
    · show (stitchChunks d ((splitOnSeq d (buf ++ c)).getLastD []) cs).2 = _
      rw [ih2, hflat, happ,
        getLastD_append_of_ne_nil _ hne]

/-- **C1**: For every finite sequence of text chunks and delimiter `d`, the
`stitchChunks` operator emits exactly the sequence of messages obtained by
splitting the concatenation of the chunks on `d` — only the complete
(pre-delimiter) segments — and the trailing partial segment (the content
after the last delimiter) is retained in the buffer, never emitted. -/
theorem stitchChunks_emits_split_of_concatenation (d : List Char)
    (cs : List (List Char)) :
    (stitchChunks d [] cs).1 = (splitOnSeq d cs.flatten).dropLast ∧
    (stitchChunks d [] cs).2 = (splitOnSeq d cs.flatten).getLastD [] := by
  have := stitchChunks_invariant d cs [] (splitOnSeq_nil d)
  simpa using this

/-! ## Pending-action bookkeeping lemmas -/

theorem not_mem_removePendingAction (l : List Nat) (actionId : Nat) :
    actionId ∉ _removePendingAction l actionId := by
  simp [_removePendingAction]

theorem not_mem_removePendingAction_of_not_mem {l : List Nat} {a : Nat}
    (id : Nat) (h : a ∉ l) : a ∉ _removePendingAction l id :=
  fun hm => h (List.mem_of_mem_filter hm)

theorem removePendingAction_of_not_mem {l : List Nat} {actionId : Nat}
    (h : actionId ∉ l) : _removePendingAction l actionId = l := by
  rw [_removePendingAction, List.filter_eq_self]
  intro a ha
  simp only [ne_eq, decide_eq_true_eq]
  exact fun hEq => h (hEq ▸ ha)

/-- **C10**: `_removePendingAction` removes every occurrence of the given
actionId in one call (so two colliding `_addPendingAction`s are both
deregistered together), leaves the list unchanged when the id is absent, and
is idempotent. -/
theorem removePendingAction_removes_all_and_is_idempotent
    (l : List Nat) (actionId : Nat) :
    actionId ∉ _removePendingAction l actionId ∧
    (actionId ∉ l → _removePendingAction l actionId = l) ∧
    _removePendingAction (_removePendingAction l actionId) actionId
      = _removePendingAction l actionId ∧
    _removePendingAction
        (_addPendingAction (_addPendingAction l actionId) actionId) actionId
      = _removePendingAction l actionId := by
  refine ⟨not_mem_removePendingAction l actionId,
    fun h => removePendingAction_of_not_mem h, ?_, ?_⟩
  · exact removePendingAction_of_not_mem (not_mem_removePendingAction l actionId)
  · simp [_removePendingAction, _addPendingAction]

theorem removePendingAction_removes_all_and_is_idempotent_witness :
    333333 ∉ _removePendingAction [111111, 222222] 333333 ∧
    _removePendingAction [111111, 222222] 333333 = [111111, 222222] ∧
    _removePendingAction (_removePendingAction [111111, 222222] 333333) 333333
      = _removePendingAction [111111, 222222] 333333 ∧
    _removePendingAction
        (_addPendingAction (_addPendingAction [111111, 222222] 333333) 333333)
        333333
      = _removePendingAction [111111, 222222] 333333 := by
  have h := removePendingAction_removes_all_and_is_idempotent [111111, 222222] 333333
  exact ⟨h.1, h.2.1 (by decide), h.2.2.1, h.2.2.2⟩

/-! ## Notification lifecycle theorems -/

theorem toggleStep_eq (started : Bool) (p : List Nat) :
    toggleStep started p =
      (!p.isEmpty,
        if !p.isEmpty && !started then [NotifOp.start]
        else if p.isEmpty && started then [NotifOp.stop]
        else []) := by
  cases hp : p.isEmpty <;> cases started <;> simp [toggleStep, hp]

theorem toggleRun_eq_specNotificationOps (ps : List (List Nat)) :
    ∀ started : Bool, toggleRun started ps = specNotificationOps started ps := by
  induction ps with
  | nil => intro started; rfl
  | cons p ps ih =>
    intro started
    rw [toggleRun, specNotificationOps, toggleStep_eq]
    cases hp : p.isEmpty <;> cases started <;> simp [ih]

theorem specNotificationOps_count_start (ps : List (List Nat)) :
    ∀ b : Bool, (specNotificationOps b ps).count NotifOp.start
      = risingEdges b (ps.map (fun p => !p.isEmpty)) := by
  induction ps with
  | nil => intro b; rfl
  | cons p ps ih =>
    intro b
    rw [specNotificationOps, List.map_cons, risingEdges, List.count_append, ih]
    cases hp : p.isEmpty <;> cases b <;> simp

theorem specNotificationOps_count_stop (ps : List (List Nat)) :
    ∀ b : Bool, (specNotificationOps b ps).count NotifOp.stop
      = fallingEdges b (ps.map (fun p => !p.isEmpty)) := by
  induction ps with
  | nil => intro b; rfl
  | cons p ps ih =>
    intro b
    rw [specNotificationOps, List.map_cons, fallingEdges, List.count_append, ih]
    cases hp : p.isEmpty <;> cases b <;> simp

/-- **C8**: over any sequence of `pendingActions$` emissions observed while
connected (initially nothing started), the lifecycle manager's calls are
exactly one `startNotifications` per empty→non-empty transition of the
pending set and exactly one `stopNotifications` per non-empty→empty
transition, with no calls at any other point — regardless of how many
distinct action ids contributed. -/
theorem autoToggleActionNotifications_starts_stops_on_transitions
    (ps : List (List Nat)) :
    toggleRun false ps = specNotificationOps false ps ∧
    (toggleRun false ps).count NotifOp.start
      = risingEdges false (ps.map (fun p => !p.isEmpty)) ∧
    (toggleRun false ps).count NotifOp.stop
      = fallingEdges false (ps.map (fun p => !p.isEmpty)) := by
  refine ⟨toggleRun_eq_specNotificationOps ps false, ?_, ?_⟩
  · rw [toggleRun_eq_specNotificationOps ps false]
    exact specNotificationOps_count_start ps false
  · rw [toggleRun_eq_specNotificationOps ps false]
    exact specNotificationOps_count_stop ps false

/-! ## Connection status broadcast theorems -/

theorem chain_dropConsecFrom {β : Type} [DecidableEq β] (l : List β) :
    ∀ prev : β, List.Chain' (· ≠ ·) (dropConsecFrom prev l) ∧
      ∀ y ∈ (dropConsecFrom prev l).head?, y ≠ prev := by
  induction l with
  | nil =>
    intro prev
    exact ⟨List.chain'_nil, by simp [dropConsecFrom]⟩
  | cons x xs ih =>
    intro prev
    rw [dropConsecFrom]
    by_cases hx : x = prev
    · rw [if_pos hx]
      exact ih prev
    · rw [if_neg hx]
      refine ⟨?_, ?_⟩
      · rw [List.chain'_cons']
        refine ⟨?_, (ih x).1⟩
        intro y hy
        exact fun hEq => (ih x).2 y hy hEq.symm
      · intro y hy
        simp only [List.head?_cons, Option.mem_def, Option.some.injEq] at hy
        exact hy ▸ hx

theorem chain_distinctUntilChangedList {β : Type} [DecidableEq β] (l : List β) :
    List.Chain' (· ≠ ·) (distinctUntilChangedList l) := by
  cases l with
  | nil => exact List.chain'_nil
  | cons x xs =>
    rw [distinctUntilChangedList, List.chain'_cons']
    refine ⟨?_, (chain_dropConsecFrom xs x).1⟩
    intro y hy
    exact fun hEq => (chain_dropConsecFrom xs x).2 y hy hEq.symm

theorem observeFrom_eq_drop (es : List STATUS) (k : Nat) (h1 : 1 ≤ k)
    (h2 : k ≤ (connectionStatusPipeline es).length) :
    observeFrom es k = (connectionStatusPipeline es).drop (k - 1) := by
  have hlt : k - 1 < (connectionStatusPipeline es).length := by omega
  have hlast : ((connectionStatusPipeline es).take k).getLast?
      = some ((connectionStatusPipeline es)[k - 1]) := by
    rw [List.getLast?_eq_getElem?, List.getElem?_take]
    have hlen : ((connectionStatusPipeline es).take k).length = k := by
      simp
      omega
    rw [hlen, if_pos (by omega : k - 1 < k)]
    exact List.getElem?_eq_getElem hlt
  rw [observeFrom, hlast]
  rw [List.drop_eq_getElem_cons hlt]
  have hk : k - 1 + 1 = k := by omega
  rw [hk]

/-- **C9**: the connection status cell deduplicates consecutive identical
values, and — via `shareReplay(1)` — a subscriber joining after the pipeline
has produced `k` outputs observes exactly the suffix of the deduplicated
output stream starting at output `k` (its first element, the replayed one,
is the current status at subscribe time).  Hence any two subscribers observe
suffixes of one common sequence of pairwise-distinct consecutive values,
each beginning with the latest value at its own subscription point. -/
theorem connectionStatus_dedups_and_replays_latest (es : List STATUS)
    (k : Nat) (h1 : 1 ≤ k) (h2 : k ≤ (connectionStatusPipeline es).length) :
    List.Chain' (· ≠ ·) (connectionStatusPipeline es) ∧
    observeFrom es k = (connectionStatusPipeline es).drop (k - 1) :=
  ⟨chain_distinctUntilChangedList _, observeFrom_eq_drop es k h1 h2⟩

theorem connectionStatus_dedups_and_replays_latest_witness :
    List.Chain' (· ≠ ·) (connectionStatusPipeline
      [STATUS.disconnected, STATUS.disconnected, STATUS.connecting]) ∧
    observeFrom [STATUS.disconnected, STATUS.disconnected, STATUS.connecting] 1
      = (connectionStatusPipeline
          [STATUS.disconnected, STATUS.disconnected, STATUS.connecting]).drop
          (1 - 1) :=
  connectionStatus_dedups_and_replays_latest
    [STATUS.disconnected, STATUS.disconnected, STATUS.connecting] 1
    (by decide) (by decide)

/-! ## Action dispatcher lemmas -/

theorem runEvents_append
    (step : DispatchState → DispatchEvent → DispatchState × List BtOp)
    (l1 l2 : List DispatchEvent) : ∀ s : DispatchState,
    runEvents step s (l1 ++ l2)
      = ((runEvents step (runEvents step s l1).1 l2).1,
          (runEvents step s l1).2
            ++ (runEvents step (runEvents step s l1).1 l2).2) := by
  induction l1 with
  | nil => intro s; simp [runEvents]
  | cons e es ih =>
    intro s
    simp only [List.cons_append, runEvents, List.append_eq]
    rw [ih (step s e).1]
    simp [List.append_assoc]

/-- Once the promise has settled, the pending id has been removed and the
timer is spent, every further event leaves those three facts intact. -/
theorem stepCorrelated_preserves_settled_state {aid t : Nat} {x : Settled}
    {s : DispatchState} (e : DispatchEvent)
    (h1 : s.outcome = some x) (h2 : aid ∉ s.pending)
    (h3 : s.timerArmed = false) :
    (stepCorrelated aid t s e).1.outcome = some x ∧
    aid ∉ (stepCorrelated aid t s e).1.pending ∧
    (stepCorrelated aid t s e).1.timerArmed = false := by
  cases e with
  | timerFire =>
    rw [stepCorrelated, if_neg (by simp [h3])]
    exact ⟨h1, h2, h3⟩
  | responseMsg r =>
    rw [stepCorrelated]
    split
    · exact ⟨by simp [settle, h1], not_mem_removePendingAction _ _, rfl⟩
    · exact ⟨h1, h2, h3⟩
  | writeOk => exact ⟨h1, h2, h3⟩
  | writeFail m =>
    exact ⟨by simp [stepCorrelated, settle, h1],
      not_mem_removePendingAction _ _, h3⟩

theorem runCorrelated_preserves_settled_state {aid t : Nat} {x : Settled}
    (evs : List DispatchEvent) : ∀ s : DispatchState,
    s.outcome = some x → aid ∉ s.pending → s.timerArmed = false →
    (runEvents (stepCorrelated aid t) s evs).1.outcome = some x ∧
    aid ∉ (runEvents (stepCorrelated aid t) s evs).1.pending ∧
    (runEvents (stepCorrelated aid t) s evs).1.timerArmed = false := by
  induction evs with
  | nil => intro s h1 h2 h3; exact ⟨h1, h2, h3⟩
  | cons e es ih =>
    intro s h1 h2 h3
    obtain ⟨g1, g2, g3⟩ := stepCorrelated_preserves_settled_state e h1 h2 h3
    simpa [runEvents] using ih (stepCorrelated aid t s e).1 g1 g2 g3

/-- Events that are neither the timer, nor a matching response, nor a write
failure leave the correlated dispatch state untouched and emit nothing. -/
theorem stepCorrelated_unchanged {aid t : Nat} {s : DispatchState}
    {e : DispatchEvent}
    (hresp : ∀ r : Response, e = .responseMsg r → r.actionId ≠ some aid)
    (htimer : e ≠ .timerFire)
    (hwf : ∀ m : String, e ≠ .writeFail m) :
    stepCorrelated aid t s e = (s, []) := by
  cases e with
  | timerFire => exact absurd rfl htimer
  | responseMsg r =>
    rw [stepCorrelated, if_neg]
    intro hc
    exact hresp r rfl hc.2
  | writeOk => rfl
  | writeFail m => exact absurd rfl (hwf m)

theorem runCorrelated_unchanged {aid t : Nat} (evs : List DispatchEvent)
    (hresp : ∀ r : Response, DispatchEvent.responseMsg r ∈ evs →
      r.actionId ≠ some aid)
    (htimer : DispatchEvent.timerFire ∉ evs)
    (hwf : ∀ m : String, DispatchEvent.writeFail m ∉ evs) :
    ∀ s : DispatchState, runEvents (stepCorrelated aid t) s evs = (s, []) := by
  induction evs with
  | nil => intro s; rfl
  | cons e es ih =>
    intro s
    have hstep : stepCorrelated aid t s e = (s, []) := by
      refine stepCorrelated_unchanged ?_ ?_ ?_
      · intro r hr; exact hresp r (hr ▸ List.mem_cons_self e es)
      · intro hr; exact htimer (hr ▸ List.mem_cons_self e es)
      · intro m hr; exact hwf m (hr ▸ List.mem_cons_self e es)
    rw [runEvents, hstep]
    have := ih (fun r hr => hresp r (List.mem_cons_of_mem e hr))
      (fun hr => htimer (List.mem_cons_of_mem e hr))
      (fun m hr => hwf m (List.mem_cons_of_mem e hr)) s
    simp [this]

/-- Every op a correlated event handler can emit is a timer cancellation or
a removal of this dispatch's pending id — never a pending-id registration,
a subscription, or a write. -/
theorem stepCorrelated_ops {aid t : Nat} (s : DispatchState)
    (e : DispatchEvent) :
    ∀ op ∈ (stepCorrelated aid t s e).2,
      op = BtOp.opCancelTimer ∨ op = BtOp.opRemovePending aid := by
  cases e with
  | timerFire => rw [stepCorrelated]; split <;> simp
  | responseMsg r => rw [stepCorrelated]; split <;> simp
  | writeOk => simp [stepCorrelated]
  | writeFail m => simp [stepCorrelated]

theorem runCorrelated_ops {aid t : Nat} (evs : List DispatchEvent) :
    ∀ s : DispatchState,
    ∀ op ∈ (runEvents (stepCorrelated aid t) s evs).2,
      op = BtOp.opCancelTimer ∨ op = BtOp.opRemovePending aid := by
  induction evs with
  | nil => intro s op hop; simp [runEvents] at hop
  | cons e es ih =>
    intro s op hop
    rw [runEvents] at hop
    simp only [List.mem_append] at hop
    cases hop with
    | inl h => exact stepCorrelated_ops s e op h
    | inr h => exact ih _ op h

/-- Invariant up to the first decisive event of a correlated dispatch whose
delivered events contain no matching response and no write failure: either
the promise is still unsettled with the timer armed, or the timer has
already fired — settling the promise with the timeout rejection and
deregistering the pending id. -/
theorem runCorrelated_timeout_invariant {aid t : Nat}
    (evs : List DispatchEvent)
    (hresp : ∀ r : Response, DispatchEvent.responseMsg r ∈ evs →
      r.actionId ≠ some aid)
    (hwf : ∀ m : String, DispatchEvent.writeFail m ∉ evs) :
    ∀ s : DispatchState,
    (s.outcome = none ∧ s.timerArmed = true) ∨
      (s.outcome = some (Settled.rejected (BtError.actionTimedOut aid t)) ∧
        aid ∉ s.pending ∧ s.timerArmed = false) →
    ((runEvents (stepCorrelated aid t) s evs).1.outcome = none ∧
        (runEvents (stepCorrelated aid t) s evs).1.timerArmed = true) ∨
      ((runEvents (stepCorrelated aid t) s evs).1.outcome
          = some (Settled.rejected (BtError.actionTimedOut aid t)) ∧
        aid ∉ (runEvents (stepCorrelated aid t) s evs).1.pending ∧
        (runEvents (stepCorrelated aid t) s evs).1.timerArmed = false) := by
  induction evs with
  | nil => intro s hI; exact hI
  | cons e es ih =>
    intro s hI
    rw [runEvents]
    refine ih (fun r hr => hresp r (List.mem_cons_of_mem e hr))
      (fun m hr => hwf m (List.mem_cons_of_mem e hr)) _ ?_
    cases hI with
    | inl h =>
      cases e with
      | timerFire =>
        rw [stepCorrelated, if_pos (by simp [h.2])]
        exact Or.inr ⟨by simp [settle, h.1], not_mem_removePendingAction _ _, rfl⟩
      | responseMsg r =>
        rw [stepCorrelated, if_neg (fun hc =>
          hresp r (List.mem_cons_self _ _) hc.2)]
        exact Or.inl h
      | writeOk => exact Or.inl h
      | writeFail m => exact absurd (List.mem_cons_self _ _) (hwf m)
    | inr h =>
      exact Or.inr (stepCorrelated_preserves_settled_state e h.1 h.2.1 h.2.2)

/-- **C2** (amended): in a correlated dispatch (`responseRequired` with a
positive `responseTimeout`), if no message carrying the dispatched actionId
is delivered before the timer fires — and the write has not failed before
then — the promise is rejected with the timeout error naming the actionId
and the timeout duration, and `pendingActions$` no longer contains that
actionId, regardless of anything delivered afterwards. -/
theorem dispatchAction_times_out (init : List Nat) (aid t : Nat)
    (payload : String) (pre post : List DispatchEvent)
    (ht : t ≠ 0)
    (hresp : ∀ r : Response, DispatchEvent.responseMsg r ∈ pre →
      r.actionId ≠ some aid)
    (hwf : ∀ m : String, DispatchEvent.writeFail m ∉ pre) :
    (dispatchAction init true t aid payload
        (pre ++ DispatchEvent.timerFire :: post)).1.outcome
      = some (Settled.rejected (BtError.actionTimedOut aid t)) ∧
    aid ∉ (dispatchAction init true t aid payload
        (pre ++ DispatchEvent.timerFire :: post)).1.pending := by
  rw [dispatchAction, if_pos ⟨rfl, ht⟩]
  simp only [dispatchCorrelated]
  have key : ∀ s1 : DispatchState,
      (s1.outcome = none ∧ s1.timerArmed = true) ∨
        (s1.outcome = some (Settled.rejected (BtError.actionTimedOut aid t)) ∧
          aid ∉ s1.pending ∧ s1.timerArmed = false) →
      (runEvents (stepCorrelated aid t) s1
          (DispatchEvent.timerFire :: post)).1.outcome
        = some (Settled.rejected (BtError.actionTimedOut aid t)) ∧
      aid ∉ (runEvents (stepCorrelated aid t) s1
          (DispatchEvent.timerFire :: post)).1.pending := by
    intro s1 hI1
    rw [runEvents]
    cases hI1 with
    | inl h =>
      rw [stepCorrelated, if_pos h.2]
      have := @runCorrelated_preserves_settled_state aid t
        (Settled.rejected (BtError.actionTimedOut aid t)) post
        { s1 with
            timerArmed := false
            pending := _removePendingAction s1.pending aid
            outcome := settle s1.outcome
              (Settled.rejected (BtError.actionTimedOut aid t)) }
        (by simp [settle, h.1]) (not_mem_removePendingAction _ _) rfl
      exact ⟨this.1, this.2.1⟩
    | inr h =>
      obtain ⟨g1, g2, g3⟩ := @stepCorrelated_preserves_settled_state aid t
        _ s1 DispatchEvent.timerFire h.1 h.2.1 h.2.2
      have := runCorrelated_preserves_settled_state (t := t) post
        (stepCorrelated aid t s1 DispatchEvent.timerFire).1 g1 g2 g3
      exact ⟨this.1, this.2.1⟩
  rw [runEvents_append]
  exact key _ (runCorrelated_timeout_invariant (t := t) pre hresp hwf _
    (Or.inl ⟨rfl, rfl⟩))

theorem dispatchAction_times_out_witness :
    (dispatchAction [] true 300 111111 ("a")
        ([] ++ DispatchEvent.timerFire :: [])).1.outcome
      = some (Settled.rejected (BtError.actionTimedOut 111111 300)) ∧
    111111 ∉ (dispatchAction [] true 300 111111 ("a")
        ([] ++ DispatchEvent.timerFire :: [])).1.pending :=
  dispatchAction_times_out [] 111111 300 ("a") [] [] (by decide)
    (by simp) (by simp)

/-- **C2** counterexample to the claim as stated: a correlated dispatch in
which no matching (indeed, no) response message is delivered within the
timeout, yet whose promise is rejected with the write failure — not with the
timeout error — because the write failed before the timer fired.  The
pending set does end up without the actionId. -/
theorem dispatchAction_timeout_claim_counterexample :
    (dispatchAction [] true 300 111111 ("p")
        [DispatchEvent.writeFail ("boom"), DispatchEvent.timerFire]).1.outcome
      = some (Settled.rejected (BtError.writeFailed ("boom"))) ∧
    (dispatchAction [] true 300 111111 ("p")
        [DispatchEvent.writeFail ("boom"), DispatchEvent.timerFire]).1.outcome
      ≠ some (Settled.rejected (BtError.actionTimedOut 111111 300)) ∧
    111111 ∉ (dispatchAction [] true 300 111111 ("p")
        [DispatchEvent.writeFail ("boom"), DispatchEvent.timerFire]).1.pending := by
  decide

/-- **C3** (amended): in a correlated dispatch, if the first delivered
message carrying the dispatched actionId arrives before the timer fires —
and the write has not failed before then — then the timer is cancelled, the
promise resolves with that first matching message's payload, and
`pendingActions$` no longer contains the actionId, regardless of anything
(later matching messages included) delivered afterwards. -/
theorem dispatchAction_resolves_on_matching_response (init : List Nat)
    (aid t : Nat) (payload : String) (pre post : List DispatchEvent)
    (r : Response)
    (ht : t ≠ 0)
    (hmatch : r.actionId = some aid)
    (hresp : ∀ r' : Response, DispatchEvent.responseMsg r' ∈ pre →
      r'.actionId ≠ some aid)
    (htimer : DispatchEvent.timerFire ∉ pre)
    (hwf : ∀ m : String, DispatchEvent.writeFail m ∉ pre) :
    (dispatchAction init true t aid payload
        (pre ++ DispatchEvent.responseMsg r :: post)).1.outcome
      = some (Settled.resolvedWith r.payload) ∧
    (dispatchAction init true t aid payload
        (pre ++ DispatchEvent.responseMsg r :: post)).1.timerArmed = false ∧
    aid ∉ (dispatchAction init true t aid payload
        (pre ++ DispatchEvent.responseMsg r :: post)).1.pending := by
  rw [dispatchAction, if_pos ⟨rfl, ht⟩]
  simp only [dispatchCorrelated]
  rw [runEvents_append]
  rw [runCorrelated_unchanged pre hresp htimer hwf]
  rw [runEvents]
  rw [stepCorrelated, if_pos ⟨rfl, hmatch⟩]
  have := @runCorrelated_preserves_settled_state aid t
    (Settled.resolvedWith r.payload) post
    { pending :=
        _removePendingAction (_addPendingAction init aid) aid
      timerArmed := false
      listenerArmed := false
      outcome := some (Settled.resolvedWith r.payload) }
    rfl (not_mem_removePendingAction _ _) rfl
  exact ⟨this.1, this.2.2, this.2.1⟩

theorem dispatchAction_resolves_on_matching_response_witness :
    (dispatchAction [] true 300 222222 ("a")
        ([] ++ DispatchEvent.responseMsg ⟨some 222222, "pong"⟩ :: [])).1.outcome
      = some (Settled.resolvedWith ("pong")) ∧
    (dispatchAction [] true 300 222222 ("a")
        ([] ++ DispatchEvent.responseMsg ⟨some 222222, "pong"⟩ :: [])).1.timerArmed
      = false ∧
    222222 ∉ (dispatchAction [] true 300 222222 ("a")
        ([] ++ DispatchEvent.responseMsg ⟨some 222222, "pong"⟩ :: [])).1.pending :=
  dispatchAction_resolves_on_matching_response [] 222222 300 ("a") [] []
    ⟨some 222222, "pong"⟩ (by decide) rfl (by simp) (by simp) (by simp)

/-- **C3** counterexample to the claim as stated: a matching response is
delivered before any timer expiry, yet the promise does not resolve with it,
because the write had already failed and rejected the promise.  (The timer
is still cancelled and the pending id still removed by the late response
handler.) -/
theorem dispatchAction_response_claim_counterexample :
    (dispatchAction [] true 300 111112 ("q")
        [DispatchEvent.writeFail ("boom"),
          DispatchEvent.responseMsg ⟨some 111112, "ok"⟩]).1.outcome
      = some (Settled.rejected (BtError.writeFailed ("boom"))) ∧
    (dispatchAction [] true 300 111112 ("q")
        [DispatchEvent.writeFail ("boom"),
          DispatchEvent.responseMsg ⟨some 111112, "ok"⟩]).1.outcome
      ≠ some (Settled.resolvedWith ("ok")) ∧
    (dispatchAction [] true 300 111112 ("q")
        [DispatchEvent.writeFail ("boom"),
          DispatchEvent.responseMsg ⟨some 111112, "ok"⟩]).1.timerArmed
      = false ∧
    111112 ∉ (dispatchAction [] true 300 111112 ("q")
        [DispatchEvent.writeFail ("boom"),
          DispatchEvent.responseMsg ⟨some 111112, "ok"⟩]).1.pending := by
  decide

/-- **C4**: in every execution of a correlated dispatch, the side-effect
trace starts with exactly the synchronous setup sequence — register the
pending id, arm the timer, subscribe the response listener, initiate the
write, in that order — and nothing after that prefix is ever a pending-id
registration, a subscription, or a write.  In particular the (unique)
pending-id registration strictly precedes the (unique) write, and so does
the arming of the response listener. -/
theorem dispatchAction_registers_pending_before_write (init : List Nat)
    (aid t : Nat) (payload : String) (evs : List DispatchEvent)
    (ht : t ≠ 0) :
    (dispatchAction init true t aid payload evs).2.take 4
      = [BtOp.opAddPending aid, BtOp.opArmTimer t,
          BtOp.opSubscribeResponses, BtOp.opWrite payload] ∧
    ∀ op ∈ (dispatchAction init true t aid payload evs).2.drop 4,
      (∀ i : Nat, op ≠ BtOp.opAddPending i) ∧
      (∀ p : String, op ≠ BtOp.opWrite p) ∧
      op ≠ BtOp.opSubscribeResponses := by
  rw [dispatchAction, if_pos ⟨rfl, ht⟩]
  simp only [dispatchCorrelated]
  constructor
  · rfl
  · intro op hop
    have hmem : op ∈ (runEvents (stepCorrelated aid t)
        { pending := _addPendingAction init aid
          timerArmed := true
          listenerArmed := true
          outcome := none } evs).2 := by
      simpa using hop
    rcases runCorrelated_ops evs _ op hmem with h | h <;> subst h <;>
      exact ⟨fun i => by simp, fun p => by simp, by simp⟩

theorem dispatchAction_registers_pending_before_write_witness :
    (dispatchAction [] true 60000 123456 ("w") []).2.take 4
      = [BtOp.opAddPending 123456, BtOp.opArmTimer 60000,
          BtOp.opSubscribeResponses, BtOp.opWrite ("w")] ∧
    ∀ op ∈ (dispatchAction [] true 60000 123456 ("w") []).2.drop 4,
      (∀ i : Nat, op ≠ BtOp.opAddPending i) ∧
      (∀ p : String, op ≠ BtOp.opWrite p) ∧
      op ≠ BtOp.opSubscribeResponses :=
  dispatchAction_registers_pending_before_write [] 123456 60000 ("w") []
    (by decide)

/-! ## Fire-and-forget lemmas -/

theorem stepFireForget_pending (s : DispatchState) (e : DispatchEvent) :
    (stepFireForget s e).1.pending = s.pending ∧
    (stepFireForget s e).2 = [] := by
  cases e <;> simp [stepFireForget]

theorem runFireForget_pending_and_ops (evs : List DispatchEvent) :
    ∀ s : DispatchState,
    (runEvents stepFireForget s evs).1.pending = s.pending ∧
    (runEvents stepFireForget s evs).2 = [] := by
  induction evs with
  | nil => intro s; exact ⟨rfl, rfl⟩
  | cons e es ih =>
    intro s
    rw [runEvents]
    refine ⟨?_, ?_⟩
    · rw [(ih _).1, (stepFireForget_pending s e).1]
    · simp [(ih _).2, (stepFireForget_pending s e).2]

theorem stepFireForget_preserves_outcome {x : Settled} {s : DispatchState}
    (e : DispatchEvent) (h : s.outcome = some x) :
    (stepFireForget s e).1.outcome = some x := by
  cases e <;> simp [stepFireForget, settle, h]

theorem runFireForget_preserves_outcome {x : Settled}
    (evs : List DispatchEvent) : ∀ s : DispatchState, s.outcome = some x →
    (runEvents stepFireForget s evs).1.outcome = some x := by
  induction evs with
  | nil => intro s h; exact h
  | cons e es ih =>
    intro s h
    rw [runEvents]
    exact ih _ (stepFireForget_preserves_outcome e h)

theorem stepFireForget_unchanged {s : DispatchState} {e : DispatchEvent}
    (hok : e ≠ DispatchEvent.writeOk)
    (hfail : ∀ m : String, e ≠ DispatchEvent.writeFail m) :
    stepFireForget s e = (s, []) := by
  cases e with
  | writeOk => exact absurd rfl hok
  | writeFail m => exact absurd rfl (hfail m)
  | timerFire => rfl
  | responseMsg r => rfl

theorem runFireForget_unchanged (evs : List DispatchEvent)
    (h : ∀ e ∈ evs, e ≠ DispatchEvent.writeOk ∧
      ∀ m : String, e ≠ DispatchEvent.writeFail m) :
    ∀ s : DispatchState, runEvents stepFireForget s evs = (s, []) := by
  induction evs with
  | nil => intro s; rfl
  | cons e es ih =>
    intro s
    have he := h e (List.mem_cons_self e es)
    rw [runEvents, stepFireForget_unchanged he.1 he.2]
    simp [ih (fun e' he' => h e' (List.mem_cons_of_mem e he'))]

/-- **C5**: a fire-and-forget dispatch (`responseRequired = false`) emits
exactly one side effect — the write —, never registers a pending id, never
arms a timer, never subscribes to any response stream, and its promise
settles with the write result alone: it resolves (with `null`) when the
write succeeds and is rejected with the write failure when the write fails,
whatever else is delivered before or after. -/
theorem dispatchAction_fire_and_forget (init : List Nat) (t aid : Nat)
    (payload : String) (pre post : List DispatchEvent) (w : Option String)
    (hpre : ∀ e ∈ pre, e ≠ DispatchEvent.writeOk ∧
      ∀ m : String, e ≠ DispatchEvent.writeFail m) :
    (dispatchAction init false t aid payload
        (pre ++ writeResultEvent w :: post)).2 = [BtOp.opWrite payload] ∧
    (dispatchAction init false t aid payload
        (pre ++ writeResultEvent w :: post)).1.outcome
      = some (match w with
          | none => Settled.resolvedNull
          | some m => Settled.rejected (BtError.writeFailed m)) ∧
    (dispatchAction init false t aid payload
        (pre ++ writeResultEvent w :: post)).1.pending = init := by
  rw [dispatchAction, if_neg (by simp)]
  simp only [dispatchFireForget]
  refine ⟨?_, ?_, ?_⟩
  · simp [(runFireForget_pending_and_ops _ _).2]
  · rw [runEvents_append, runFireForget_unchanged pre hpre, runEvents]
    cases w with
    | none =>
      exact runFireForget_preserves_outcome post _ rfl
    | some m =>
      exact runFireForget_preserves_outcome post _ rfl
  · simp [(runFireForget_pending_and_ops _ _).1]

theorem dispatchAction_fire_and_forget_witness :
    (dispatchAction [777777] false 60000 999999 ("z")
        ([] ++ writeResultEvent none :: [])).2 = [BtOp.opWrite ("z")] ∧
    (dispatchAction [777777] false 60000 999999 ("z")
        ([] ++ writeResultEvent none :: [])).1.outcome
      = some Settled.resolvedNull ∧
    (dispatchAction [777777] false 60000 999999 ("z")
        ([] ++ writeResultEvent none :: [])).1.pending = [777777] :=
  dispatchAction_fire_and_forget [777777] 60000 999999 ("z") [] [] none
    (by simp)

/-! ## Registry / connection lifecycle theorems -/

/-- **C6** (amended): a disconnect event while the transport is connected
transitions the status to Disconnected but does **not** clear
`characteristicsByName`: the registry — and therefore every channel-name
resolution — is left exactly as it was, still returning the previous
session's (invalidated) entries, until a later successful connect rebuilds
it. -/
theorem disconnect_sets_status_keeps_registry (s : WebTransportState)
    (_h : s.status = STATUS.connected) :
    (webStep s WebTransportEvent.gattServerDisconnected).status
      = STATUS.disconnected ∧
    (webStep s WebTransportEvent.gattServerDisconnected).characteristicsByName
      = s.characteristicsByName ∧
    ∀ name : String,
      webGetCharacteristicByName
          (webStep s WebTransportEvent.gattServerDisconnected) name
        = webGetCharacteristicByName s name := by
  refine ⟨rfl, rfl, fun name => rfl⟩

theorem disconnect_sets_status_keeps_registry_witness :
    (webStep
        { status := STATUS.connected, characteristicsByName := [("actions", 7)] }
        WebTransportEvent.gattServerDisconnected).status
      = STATUS.disconnected ∧
    (webStep
        { status := STATUS.connected, characteristicsByName := [("actions", 7)] }
        WebTransportEvent.gattServerDisconnected).characteristicsByName
      = [("actions", 7)] ∧
    ∀ name : String,
      webGetCharacteristicByName
          (webStep
            { status := STATUS.connected,
              characteristicsByName := [("actions", 7)] }
            WebTransportEvent.gattServerDisconnected) name
        = webGetCharacteristicByName
            { status := STATUS.connected,
              characteristicsByName := [("actions", 7)] } name :=
  disconnect_sets_status_keeps_registry
    { status := STATUS.connected, characteristicsByName := [("actions", 7)] }
    rfl

/-- **C6** counterexample to the claim as stated: connect (populating the
registry with the `actions` channel), then a disconnect event.  The status
does transition to Disconnected, but resolving `actions` afterwards still
succeeds with the stale handle — the registry was not cleared and the
resolution does not fail. -/
theorem disconnect_claim_counterexample :
    (webStep
        { status := STATUS.disconnected, characteristicsByName := [] }
        (WebTransportEvent.connectSucceeded [("actions", 7)])).status
      = STATUS.connected ∧
    (webStep
        (webStep
          { status := STATUS.disconnected, characteristicsByName := [] }
          (WebTransportEvent.connectSucceeded [("actions", 7)]))
        WebTransportEvent.gattServerDisconnected).status
      = STATUS.disconnected ∧
    webGetCharacteristicByName
        (webStep
          (webStep
            { status := STATUS.disconnected, characteristicsByName := [] }
            (WebTransportEvent.connectSucceeded [("actions", 7)]))
          WebTransportEvent.gattServerDisconnected) ("actions")
      = some 7 := by
  decide

/-- **C7** (amended): when a channel name has no registry entry — as is the
case before any connect has completed (empty registry) or when the device
never advertised a characteristic mapping to that name — the React Native
transport's `getCharacteristicByName` throws its not-found error, but the
Web transport's `getCharacteristicByName` never fails: it resolves
successfully with `undefined`.  What its callers then do differs:
`readCharacteristic` and `writeCharacteristic` check the result and reject
with `Did not find characteristic by the name: <name>`, while
`dispatchAction` never rejects on a missing channel — its `.catch` on the
lookup is dead code and `if (!characteristic) return;` exits the executor
without settling, leaving the returned promise pending forever. -/
theorem getCharacteristicByName_on_missing_name
    (reg : List (String × RnCharacteristic)) (s : WebTransportState)
    (name : String)
    (hr : reg.lookup name = none)
    (hw : s.characteristicsByName.lookup name = none) :
    rnGetCharacteristicByName reg name
      = Except.error ("Characteristic by name " ++ name ++ " is not found") ∧
    webGetCharacteristicByName s name = none ∧
    webWriteCharacteristicGuard s name
      = Except.error ("Did not find characteristic by the name: " ++ name) ∧
    webDispatchActionLookup s name = WebDispatchLookup.neverSettles := by
  refine ⟨?_, ?_, ?_, ?_⟩
  · rw [rnGetCharacteristicByName, hr]
  · rw [webGetCharacteristicByName, hw]
  · rw [webWriteCharacteristicGuard, webGetCharacteristicByName, hw]
  · rw [webDispatchActionLookup, webGetCharacteristicByName, hw]

theorem getCharacteristicByName_on_missing_name_witness :
    rnGetCharacteristicByName [] ("actions")
      = Except.error ("Characteristic by name " ++ "actions"
          ++ " is not found") ∧
    webGetCharacteristicByName
        { status := STATUS.disconnected, characteristicsByName := [] }
        ("actions") = none ∧
    webWriteCharacteristicGuard
        { status := STATUS.disconnected, characteristicsByName := [] }
        ("actions")
      = Except.error ("Did not find characteristic by the name: "
          ++ "actions") ∧
    webDispatchActionLookup
        { status := STATUS.disconnected, characteristicsByName := [] }
        ("actions") = WebDispatchLookup.neverSettles :=
  getCharacteristicByName_on_missing_name []
    { status := STATUS.disconnected, characteristicsByName := [] }
    ("actions") rfl rfl

/-- **C7** counterexample to the claim as stated: invoked before any connect
has completed (empty registry), the Web transport's
`getCharacteristicByName` does not fail — it returns a successful result
holding no address (`undefined`), whereas the React Native transport throws
as the claim describes. -/
theorem getCharacteristicByName_claim_counterexample :
    webGetCharacteristicByName
        { status := STATUS.disconnected, characteristicsByName := [] }
        ("actions") = none ∧
    rnGetCharacteristicByName [] ("actions")
      = Except.error ("Characteristic by name actions is not found") := by
  constructor
  · rfl
  · rfl

end NeurosityBluetooth
